import Mathlib

/-!
Verification development for the Infinite-Reader repository.

The repository is a cross-platform PDF reading app whose core is an
incremental PDF-to-canvas render pipeline plus a scroll-position tracker,
duplicated (with small variations) across several reader screens:

* `src/client/screens/ReaderScreen.tsx` — native screen embedding a web view
  whose inline script (`loadPDF`, `handleScroll`) decodes the document,
  renders pages, records page boundaries and tracks the current page;
* `src/unnamed/part_000` — a variant with a `NativePDFViewer` (`renderPDF`)
  and a `WebPDFViewer` (iframe `render`), plus the host controller
  (`loadPdfFile`, `showControls`/`hideControls`/`scheduleHideControls`/
  `toggleControls`, `handleGoBack`, `handlePageChange`);
* `src/unnamed/part_004` — a URL-based variant (`loadPDF`) that hands the
  document URL directly to the external renderer.

Numbers that are JavaScript `number`s (scroll offsets, layout offsets,
canvas heights) are embedded as `ℚ`; page indices and counters as `ℕ`.
The external PDF library (`pdfjsLib`) is a black box: it is embedded as an
abstract decoding function `String → Except String PdfDoc` where a
`PdfDoc` exposes the page count and each page's rendered (layout) height.
-/

namespace InfiniteReader

/-- One recorded entry of `pageOffsets` in the render surface scripts:
`{ pageNum, top: canvas.offsetTop, bottom: canvas.offsetTop + canvas.offsetHeight }`. -/
structure PageBoundary where
  pageNum : ℕ
  top : ℚ
  bottom : ℚ
deriving DecidableEq

/-- The payload of a `page`/`pageChange` message posted to the host
(`sendMessage({ type: 'pageChange', currentPage, totalPages })`). -/
structure PageMsg where
  current : ℕ
  total : ℕ
deriving DecidableEq

/-- The vertical probe used by every scroll handler in the repo:
`window.scrollY + window.innerHeight / 2` (the viewport center). -/
def probePoint (scrollY innerHeight : ℚ) : ℚ :=
  scrollY + innerHeight / 2

/-- The scan loop of `handleScroll` in `src/client/screens/ReaderScreen.tsx`
(lines 293-310): walk `pageOffsets` in order; at the first entry with
`scrollTop >= top && scrollTop < bottom`, update `currentVisiblePage` and
post a `pageChange` message only if the page differs, then `break`.
Returns the new `currentVisiblePage` and the message sent (if any). -/
def scrollLoop (total cur : ℕ) (probe : ℚ) : List PageBoundary → ℕ × Option PageMsg
  | [] => (cur, none)
  | b :: rest =>
    if b.top ≤ probe ∧ probe < b.bottom then
      if cur ≠ b.pageNum then (b.pageNum, some ⟨b.pageNum, total⟩) else (cur, none)
    else scrollLoop total cur probe rest

/-- `handleScroll` of `ReaderScreen.tsx`: compute
`scrollTop = window.scrollY + window.innerHeight / 2` and run the scan loop. -/
def handleScroll (offsets : List PageBoundary) (total cur : ℕ)
    (scrollY innerHeight : ℚ) : ℕ × Option PageMsg :=
  scrollLoop total cur (probePoint scrollY innerHeight) offsets

/-- The scroll listener of `src/unnamed/part_000` (both the iframe variant,
lines 141-150, and the `renderPDF` webview variant, lines 308-318): the same
scan but with the three conditions combined into one guard
(`y >= p.top && y < p.bottom && currentPage !== p.page`), so an entry whose
page already equals `currentPage` does not stop the scan. -/
def scrollLoopCombined (total cur : ℕ) (probe : ℚ) :
    List PageBoundary → ℕ × Option PageMsg
  | [] => (cur, none)
  | b :: rest =>
    if b.top ≤ probe ∧ probe < b.bottom ∧ cur ≠ b.pageNum then
      (b.pageNum, some ⟨b.pageNum, total⟩)
    else scrollLoopCombined total cur probe rest

/-- Boolean form of "the probe point falls in this boundary's span". -/
def inSpanB (probe : ℚ) (b : PageBoundary) : Bool :=
  decide (b.top ≤ probe) && decide (probe < b.bottom)

/-- The first recorded boundary whose span contains the probe point. -/
def firstMatch (probe : ℚ) (offsets : List PageBoundary) : Option PageBoundary :=
  offsets.find? (inSpanB probe)

/-- The webview scripts initialise the tracked page with
`let currentVisiblePage = 1;` (resp. `let currentPage = 1;`). -/
def currentVisiblePageInit : ℕ := 1

/-- Ordering relation the recorded boundary list satisfies: page numbers
strictly increase and spans do not overlap. -/
abbrev boundLt (a b : PageBoundary) : Prop :=
  a.pageNum < b.pageNum ∧ a.bottom ≤ b.top

/-- Non-overlap alone (the part of `boundLt` the scan depends on). -/
abbrev spanLe (a b : PageBoundary) : Prop :=
  a.bottom ≤ b.top

theorem inSpanB_iff {probe : ℚ} {b : PageBoundary} :
    inSpanB probe b = true ↔ b.top ≤ probe ∧ probe < b.bottom := by
  simp [inSpanB]

theorem scrollLoop_fst (total cur : ℕ) (probe : ℚ) (l : List PageBoundary) :
    (scrollLoop total cur probe l).1 =
      match firstMatch probe l with
      | some b => b.pageNum
      | none => cur := by
  induction l with
  | nil => rfl
  | cons b rest ih =>
    by_cases hb : b.top ≤ probe ∧ probe < b.bottom
    · have hsp : inSpanB probe b = true := inSpanB_iff.mpr hb
      rw [scrollLoop, if_pos hb, firstMatch, List.find?_cons_of_pos _ hsp]
      by_cases hc : cur ≠ b.pageNum
      · rw [if_pos hc]
      · rw [if_neg hc]
        simpa using (not_ne_iff.mp hc)
    · have hsp : ¬ (inSpanB probe b = true) := fun h => hb (inSpanB_iff.mp h)
      rw [scrollLoop, if_neg hb, firstMatch,
        List.find?_cons_of_neg _ (by simpa using hsp)]
      exact ih

theorem scrollLoop_snd (total cur : ℕ) (probe : ℚ) (l : List PageBoundary) :
    (scrollLoop total cur probe l).2 =
      match firstMatch probe l with
      | some b => if cur = b.pageNum then none else some ⟨b.pageNum, total⟩
      | none => none := by
  induction l with
  | nil => rfl
  | cons b rest ih =>
    by_cases hb : b.top ≤ probe ∧ probe < b.bottom
    · have hsp : inSpanB probe b = true := inSpanB_iff.mpr hb
      rw [scrollLoop, if_pos hb, firstMatch, List.find?_cons_of_pos _ hsp]
      dsimp only
      by_cases hc : cur = b.pageNum
      · rw [if_pos hc, if_neg (not_ne_iff.mpr hc)]
      · rw [if_neg hc, if_pos hc]
    · have hsp : ¬ (inSpanB probe b = true) := fun h => hb (inSpanB_iff.mp h)
      rw [scrollLoop, if_neg hb, firstMatch,
        List.find?_cons_of_neg _ (by simpa using hsp)]
      exact ih

theorem firstMatch_mem {probe : ℚ} {l : List PageBoundary} {b : PageBoundary}
    (h : firstMatch probe l = some b) : b ∈ l :=
  List.mem_of_find?_eq_some h

theorem firstMatch_spec {probe : ℚ} {l : List PageBoundary} {b : PageBoundary}
    (h : firstMatch probe l = some b) : b.top ≤ probe ∧ probe < b.bottom :=
  inSpanB_iff.mp (List.find?_some h)

/-- If an emission happened, the emitted page differs from the previous
`currentVisiblePage` and becomes the new one (edge-triggered emission). -/
theorem scrollLoop_emit_ne (total cur : ℕ) (probe : ℚ) (l : List PageBoundary)
    (m : PageMsg) (h : (scrollLoop total cur probe l).2 = some m) :
    m.current ≠ cur ∧ (scrollLoop total cur probe l).1 = m.current ∧ m.total = total := by
  rw [scrollLoop_snd] at h
  rw [scrollLoop_fst]
  cases hfm : firstMatch probe l with
  | none => rw [hfm] at h; cases h
  | some b =>
    rw [hfm] at h
    dsimp only at h
    dsimp only
    by_cases hc : cur = b.pageNum
    · rw [if_pos hc] at h; cases h
    · rw [if_neg hc] at h
      cases h
      exact ⟨fun hc2 => hc hc2.symm, rfl, rfl⟩

/-- If nothing was emitted, the tracked page is unchanged. -/
theorem scrollLoop_none_fst (total cur : ℕ) (probe : ℚ) (l : List PageBoundary)
    (h : (scrollLoop total cur probe l).2 = none) :
    (scrollLoop total cur probe l).1 = cur := by
  rw [scrollLoop_snd] at h
  rw [scrollLoop_fst]
  cases hfm : firstMatch probe l with
  | none => rfl
  | some b =>
    rw [hfm] at h
    dsimp only at h
    dsimp only
    by_cases hc : cur = b.pageNum
    · exact hc.symm
    · rw [if_neg hc] at h; cases h

/-- On a list with no matching entry, the combined-guard loop also retains
the current page and emits nothing. -/
theorem scrollLoopCombined_no_match (total cur : ℕ) (probe : ℚ)
    (l : List PageBoundary) (h : ∀ b ∈ l, ¬ (b.top ≤ probe ∧ probe < b.bottom)) :
    scrollLoopCombined total cur probe l = (cur, none) := by
  induction l with
  | nil => rfl
  | cons b rest ih =>
    have hb := h b (List.mem_cons_self b rest)
    rw [scrollLoopCombined, if_neg (fun hx => hb ⟨hx.1, hx.2.1⟩)]
    exact ih (fun x hx => h x (List.mem_cons_of_mem b hx))

/-- On non-overlapping boundary lists the combined-guard loop of
`src/unnamed/part_000` agrees with the separated-guard loop of
`ReaderScreen.tsx`. -/
theorem scrollLoopCombined_eq (total cur : ℕ) (probe : ℚ)
    (l : List PageBoundary) (hord : l.Pairwise spanLe) :
    scrollLoopCombined total cur probe l = scrollLoop total cur probe l := by
  induction l with
  | nil => rfl
  | cons b rest ih =>
    rw [List.pairwise_cons] at hord
    obtain ⟨hb, hrest⟩ := hord
    by_cases hm : b.top ≤ probe ∧ probe < b.bottom
    · by_cases hc : cur ≠ b.pageNum
      · rw [scrollLoopCombined, if_pos ⟨hm.1, hm.2, hc⟩,
          scrollLoop, if_pos hm, if_pos hc]
      · rw [scrollLoopCombined, if_neg (fun hx => hc hx.2.2),
          scrollLoop, if_pos hm, if_neg hc]
        exact scrollLoopCombined_no_match total cur probe rest
          (fun x hx hsp => absurd (le_trans (hb x hx) hsp.1) (not_le.mpr hm.2))
    · rw [scrollLoopCombined, if_neg (fun hx => hm ⟨hx.1, hx.2.1⟩),
        scrollLoop, if_neg hm]
      exact ih hrest

/-- If some recorded boundary `b0` already lies (by its top edge) at or above
the probe, the first boundary matched by the probe cannot carry a smaller
page number, provided the list is ordered and non-overlapping. -/
theorem firstMatch_pageNum_mono (p : ℚ) :
    ∀ (l : List PageBoundary), l.Pairwise boundLt →
      ∀ b0 ∈ l, b0.top ≤ p →
        ∀ b, firstMatch p l = some b → b0.pageNum ≤ b.pageNum := by
  intro l
  induction l with
  | nil => intro _ b0 hb0; cases hb0
  | cons c rest ih =>
    intro hord b0 hb0 htop b hfind
    rw [List.pairwise_cons] at hord
    obtain ⟨hc, hrest⟩ := hord
    by_cases hmc : inSpanB p c = true
    · rw [firstMatch, List.find?_cons_of_pos _ hmc] at hfind
      cases hfind
      rcases List.mem_cons.mp hb0 with h0 | h0
      · exact le_of_eq (congrArg PageBoundary.pageNum h0)
      · have hspan := inSpanB_iff.mp hmc
        exact absurd (le_trans (hc b0 h0).2 htop) (not_le.mpr hspan.2)
    · rw [firstMatch, List.find?_cons_of_neg _ (by simpa using hmc)] at hfind
      rcases List.mem_cons.mp hb0 with h0 | h0
      · have hbmem : b ∈ rest := List.mem_of_find?_eq_some hfind
        calc b0.pageNum = c.pageNum := congrArg PageBoundary.pageNum h0
          _ ≤ b.pageNum := le_of_lt (hc b hbmem).1
      · exact ih hrest b0 h0 htop b hfind

/-- States the tracked page `cur` is consistent with having processed probe
points up to `p`: either no boundary has been entered yet (`cur` is below
every recorded page number), or `cur` is the page of a recorded boundary
whose top edge the probe has reached. -/
def TrackerReach (offsets : List PageBoundary) (cur : ℕ) (p : ℚ) : Prop :=
  (∀ b ∈ offsets, cur ≤ b.pageNum) ∨
    ∃ b ∈ offsets, b.pageNum = cur ∧ b.top ≤ p

theorem trackerReach_mono {offsets : List PageBoundary} {cur : ℕ} {p p' : ℚ}
    (hpp : p ≤ p') (h : TrackerReach offsets cur p) : TrackerReach offsets cur p' := by
  rcases h with h | ⟨b, hb, hpn, htop⟩
  · exact Or.inl h
  · exact Or.inr ⟨b, hb, hpn, le_trans htop hpp⟩

/-- One scroll step with a larger (or equal) probe point never decreases the
tracked page, and re-establishes the tracker invariant. -/
theorem trackerStep (offsets : List PageBoundary) (hord : offsets.Pairwise boundLt)
    (total cur : ℕ) (p p' : ℚ) (hpp : p ≤ p') (hinv : TrackerReach offsets cur p) :
    cur ≤ (scrollLoop total cur p' offsets).1 ∧
      TrackerReach offsets (scrollLoop total cur p' offsets).1 p' := by
  rw [scrollLoop_fst]
  cases hfm : firstMatch p' offsets with
  | none =>
    exact ⟨le_refl cur, trackerReach_mono hpp hinv⟩
  | some b =>
    dsimp only
    constructor
    · rcases hinv with h | ⟨b0, hb0, hpn, htop⟩
      · exact h b (firstMatch_mem hfm)
      · calc cur = b0.pageNum := hpn.symm
          _ ≤ b.pageNum :=
            firstMatch_pageNum_mono p' offsets hord b0 hb0 (le_trans htop hpp) b hfm
    · exact Or.inr ⟨b, firstMatch_mem hfm, rfl, (firstMatch_spec hfm).1⟩

/-- The sequence of pages reported by successive scroll notifications: each
step runs the `handleScroll` scan, threading `currentVisiblePage`. -/
def reportedPages (offsets : List PageBoundary) (total cur : ℕ) :
    List ℚ → List ℕ
  | [] => []
  | q :: qs =>
    (scrollLoop total cur q offsets).1 ::
      reportedPages offsets total (scrollLoop total cur q offsets).1 qs

/-- The page-change messages actually posted to the host over a sequence of
scroll notifications. -/
def runEmits (offsets : List PageBoundary) (total cur : ℕ) :
    List ℚ → List PageMsg
  | [] => []
  | q :: qs =>
    match (scrollLoop total cur q offsets).2 with
    | some m => m :: runEmits offsets total (scrollLoop total cur q offsets).1 qs
    | none => runEmits offsets total (scrollLoop total cur q offsets).1 qs

theorem reportedPages_chain (offsets : List PageBoundary)
    (hord : offsets.Pairwise boundLt) (total : ℕ) :
    ∀ (probes : List ℚ) (cur : ℕ) (p : ℚ),
      TrackerReach offsets cur p → List.Chain (· ≤ ·) p probes →
        List.Chain (· ≤ ·) cur (reportedPages offsets total cur probes) := by
  intro probes
  induction probes with
  | nil => intro cur p _ _; exact List.Chain.nil
  | cons q qs ih =>
    intro cur p hinv hchain
    rw [List.chain_cons] at hchain
    obtain ⟨hpq, hqs⟩ := hchain
    have hstep := trackerStep offsets hord total cur p q hpq hinv
    rw [reportedPages, List.chain_cons]
    exact ⟨hstep.1, ih _ q hstep.2 hqs⟩

/-- Claim C1: for every scroll notification the tracker computes
`probePoint = scrollOffset + viewportHeight / 2`, scans `pageBoundaries` in
order and reports as current page the first entry with
`topOffset ≤ probePoint < bottomOffset`; when no entry matches, the
previously reported current page is retained unchanged (no error, no reset
to page 1). The last conjunct checks the combined-guard loop of
`src/unnamed/part_000` agrees with the `ReaderScreen.tsx` loop on
non-overlapping boundary lists. -/
theorem scroll_tracker_first_match_or_retain
    (offsets : List PageBoundary) (total cur : ℕ) (scrollY innerHeight : ℚ) :
    handleScroll offsets total cur scrollY innerHeight
        = scrollLoop total cur (scrollY + innerHeight / 2) offsets
    ∧ (∀ b, firstMatch (probePoint scrollY innerHeight) offsets = some b →
        (handleScroll offsets total cur scrollY innerHeight).1 = b.pageNum)
    ∧ (firstMatch (probePoint scrollY innerHeight) offsets = none →
        handleScroll offsets total cur scrollY innerHeight = (cur, none))
    ∧ (∀ p : ℚ, offsets.Pairwise spanLe →
        scrollLoopCombined total cur p offsets = scrollLoop total cur p offsets) := by
  refine ⟨rfl, ?_, ?_, ?_⟩
  · intro b hb
    rw [handleScroll, scrollLoop_fst, hb]
  · intro hnone
    have h1 : (handleScroll offsets total cur scrollY innerHeight).1 = cur := by
      rw [handleScroll, scrollLoop_fst, hnone]
    have h2 : (handleScroll offsets total cur scrollY innerHeight).2 = none := by
      rw [handleScroll, scrollLoop_snd, hnone]
    exact Prod.ext h1 h2
  · intro p hord
    exact scrollLoopCombined_eq total cur p offsets hord

/-- Witness for C1 on concrete inputs: a probe in page 2's span reports 2,
a probe past every boundary retains the previous page, and the two loop
variants agree on an ordered boundary list. -/
theorem scroll_tracker_first_match_or_retain_witness :
    (handleScroll [⟨1, 0, 10⟩, ⟨2, 10, 20⟩] 2 1 12 4).1 = 2
    ∧ handleScroll [⟨1, 0, 10⟩, ⟨2, 10, 20⟩] 2 2 30 4 = (2, none)
    ∧ scrollLoopCombined 2 1 14 [⟨1, 0, 10⟩, ⟨2, 10, 20⟩]
        = scrollLoop 2 1 14 [⟨1, 0, 10⟩, ⟨2, 10, 20⟩] :=
  ⟨(scroll_tracker_first_match_or_retain [⟨1, 0, 10⟩, ⟨2, 10, 20⟩] 2 1 12 4).2.1
      ⟨2, 10, 20⟩ (by norm_num [firstMatch, probePoint, inSpanB, List.find?]),
   (scroll_tracker_first_match_or_retain [⟨1, 0, 10⟩, ⟨2, 10, 20⟩] 2 2 30 4).2.2.1
      (by norm_num [firstMatch, probePoint, inSpanB, List.find?]),
   (scroll_tracker_first_match_or_retain [⟨1, 0, 10⟩, ⟨2, 10, 20⟩] 2 1 0 0).2.2.2
      14 (by norm_num [List.pairwise_cons, spanLe])⟩

/-- Claim C2: on a fixed, ordered `pageBoundaries` list, monotonically
increasing probe points yield a non-decreasing sequence of reported pages
(starting from a `currentVisiblePage` not above any recorded page number, as
with the initial value 1); a page-change message is emitted only when the
computed page differs from the last-notified page, and repeating an
identical probe point never re-emits a notification. -/
theorem scroll_tracker_monotone_edge_triggered
    (offsets : List PageBoundary) (total cur : ℕ) (probes : List ℚ)
    (hord : offsets.Pairwise boundLt)
    (hinit : ∀ b ∈ offsets, cur ≤ b.pageNum)
    (hmono : probes.Chain' (· ≤ ·)) :
    (reportedPages offsets total cur probes).Chain' (· ≤ ·)
    ∧ (∀ (c : ℕ) (p : ℚ) (m : PageMsg),
        (scrollLoop total c p offsets).2 = some m → m.current ≠ c)
    ∧ (∀ (c : ℕ) (p : ℚ),
        (scrollLoop total ((scrollLoop total c p offsets).1) p offsets).2 = none) := by
  refine ⟨?_, ?_, ?_⟩
  · cases probes with
    | nil => exact trivial
    | cons q qs =>
      rw [reportedPages]
      have hstep := trackerStep offsets hord total cur q q (le_refl q) (Or.inl hinit)
      exact reportedPages_chain offsets hord total qs _ q hstep.2 hmono
  · intro c p m hm
    exact (scrollLoop_emit_ne total c p offsets m hm).1
  · intro c p
    rw [scrollLoop_snd]
    cases hfm : firstMatch p offsets with
    | none => rfl
    | some b =>
      dsimp only
      rw [if_pos (by rw [scrollLoop_fst, hfm])]

/-- Witness for C2 on concrete inputs: two ordered boundaries, increasing
probes 5, 15, 15 from the initial page 1. -/
theorem scroll_tracker_monotone_edge_triggered_witness :
    ([⟨1, 0, 10⟩, ⟨2, 10, 20⟩] : List PageBoundary).Pairwise boundLt
    ∧ (∀ b ∈ ([⟨1, 0, 10⟩, ⟨2, 10, 20⟩] : List PageBoundary), 1 ≤ b.pageNum)
    ∧ ([5, 15, 15] : List ℚ).Chain' (· ≤ ·)
    ∧ (reportedPages [⟨1, 0, 10⟩, ⟨2, 10, 20⟩] 2 1 [5, 15, 15]).Chain' (· ≤ ·) :=
  ⟨by norm_num [List.pairwise_cons, boundLt], by decide,
   by norm_num [List.chain'_cons, List.chain'_singleton],
   (scroll_tracker_monotone_edge_triggered [⟨1, 0, 10⟩, ⟨2, 10, 20⟩] 2 1 [5, 15, 15]
      (by norm_num [List.pairwise_cons, boundLt]) (by decide)
      (by norm_num [List.chain'_cons, List.chain'_singleton])).1⟩

/-! ## Document render pipeline

Embedding of the webview script `renderPDF` of `src/unnamed/part_000`
(lines 263-324; `loadPDF` of `ReaderScreen.tsx` has the same shape with
message names `pdfLoaded`/`renderComplete`), and of the URL-based `loadPDF`
of `src/unnamed/part_004` (lines 190-240).  The external `pdfjsLib` is
abstracted as a decoding function producing a `PdfDoc`; a run is recorded
as a trace of observable actions. -/

/-- Black-box view of the external PDF library: the decoded document
exposes its page count and, for each page number, the rendered canvas's
layout height (`canvas.offsetHeight`). -/
structure PdfDoc where
  numPages : ℕ
  pageHeight : ℕ → ℚ

/-- Observable actions of a render-surface run.  `loaded`, `rendered` and
`errorSent` are messages posted to the host (`sendMessage`/`postMessage`);
`status` is the surface-local status text (`status.textContent = 'Page i of
N'`); `appended` records a push onto `pageOffsets`; `attachScroll` is the
`window.addEventListener('scroll', ...)` call; `surfaceError` is an error
shown only in the surface's own DOM (part_004's catch block). -/
inductive Ev where
  | loaded (totalPages : ℕ)
  | rendered
  | errorSent (msg : String)
  | surfaceError (msg : String)
  | status (page total : ℕ)
  | appended (b : PageBoundary)
  | attachScroll
deriving DecidableEq

/-- Result of one pipeline run: the action trace, the final `pageOffsets`
list, the page count learned from the decoder (if reached), and whether the
scroll listener ended up attached. -/
structure RenderResult where
  trace : List Ev
  bounds : List PageBoundary
  totalKnown : Option ℕ
  scrollAttached : Bool
deriving DecidableEq

/-- The per-page render loop of `renderPDF` (part_000) / `loadPDF`
(`ReaderScreen.tsx`): for each page, update the status text to
`'Page i of N'`, rasterize, append the canvas below the previous ones (zero
vertical gap, so its `offsetTop` is the running `top` and its bottom is
`top + offsetHeight`), and push the measured boundary onto `pageOffsets`.
`count` is the number of pages still to render, `i` the next page number,
`top` the layout offset where the next canvas lands. -/
def renderLoop (heightOf : ℕ → ℚ) (total : ℕ) :
    ℕ → ℕ → ℚ → List Ev × List PageBoundary
  | 0, _, _ => ([], [])
  | count + 1, i, top =>
    let b : PageBoundary := ⟨i, top, top + heightOf i⟩
    let r := renderLoop heightOf total count (i + 1) (top + heightOf i)
    (Ev.status i total :: Ev.appended b :: r.1, b :: r.2)

/-- Same loop without the per-page status update, as in part_004's
`loadPDF` (its loading element is hidden before the loop starts). -/
def renderLoopNoStatus (heightOf : ℕ → ℚ) :
    ℕ → ℕ → ℚ → List Ev × List PageBoundary
  | 0, _, _ => ([], [])
  | count + 1, i, top =>
    let b : PageBoundary := ⟨i, top, top + heightOf i⟩
    let r := renderLoopNoStatus heightOf count (i + 1) (top + heightOf i)
    (Ev.appended b :: r.1, b :: r.2)

/-- `renderPDF` of `src/unnamed/part_000` (webview variant): reject empty
base64 data, decode (`atob` + `pdfjsLib.getDocument`, abstracted into
`decode`), post `loaded {totalPages}`, render all pages in order, post
`rendered`, and only then attach the scroll listener.  Any failure is
caught and posted as an `error` message. -/
def renderPDF (decode : String → Except String PdfDoc) (base64Data : String)
    (padTop : ℚ) : RenderResult :=
  if base64Data.length = 0 then
    ⟨[Ev.errorSent "No PDF data available"], [], none, false⟩
  else
    match decode base64Data with
    | .error m => ⟨[Ev.errorSent m], [], none, false⟩
    | .ok pdf =>
      let r := renderLoop pdf.pageHeight pdf.numPages pdf.numPages 1 padTop
      ⟨Ev.loaded pdf.numPages :: (r.1 ++ [Ev.rendered, Ev.attachScroll]),
        r.2, some pdf.numPages, true⟩

/-- `loadPDF` of `src/unnamed/part_004`: hand the document URL straight to
`pdfjsLib.getDocument` (no byte fetch, no empty-input check), post
`pdfLoaded {totalPages}`, render all pages, then attach the scroll
listener — without posting any fully-rendered message.  Its catch block
only writes the error into the surface's own DOM. -/
def loadPDFByUrl (getDoc : String → Except String PdfDoc) (url : String)
    (padTop : ℚ) : RenderResult :=
  match getDoc url with
  | .error m => ⟨[Ev.surfaceError m], [], none, false⟩
  | .ok pdf =>
    let r := renderLoopNoStatus pdf.pageHeight pdf.numPages 1 padTop
    ⟨Ev.loaded pdf.numPages :: (r.1 ++ [Ev.attachScroll]),
      r.2, some pdf.numPages, true⟩

/-- `loadPdfFile` of `src/unnamed/part_000` (lines 389-405), host side: the
result of `readFileAsBase64` either threw (modelled as `.error`) or
produced a string; an empty string is turned into a failure before the
content is ever handed to the render surface. -/
def loadPdfFile (fetchResult : Except String String) : Except String String :=
  match fetchResult with
  | .error e => .error e
  | .ok content =>
    if content.length = 0 then .error "Failed to read PDF file - empty content"
    else .ok content

/-- Host messages among the observable actions. -/
def isHostEv : Ev → Bool
  | .loaded _ => true
  | .rendered => true
  | .errorSent _ => true
  | _ => false

/-- Surface-local per-page status updates among the observable actions. -/
def isStatusEv : Ev → Bool
  | .status _ _ => true
  | _ => false

/-- The boundaries appended during a trace, in order. -/
def appendedOf (trace : List Ev) : List PageBoundary :=
  trace.filterMap fun e =>
    match e with
    | .appended b => some b
    | _ => none

/-- Reference shape of the loop trace: for each recorded boundary, its
status update immediately followed by its append. -/
def boundsTrace (total : ℕ) : List PageBoundary → List Ev
  | [] => []
  | b :: bs => Ev.status b.pageNum total :: Ev.appended b :: boundsTrace total bs

theorem renderLoop_trace_eq (heightOf : ℕ → ℚ) (total : ℕ) :
    ∀ (count i : ℕ) (top : ℚ),
      (renderLoop heightOf total count i top).1 =
        boundsTrace total (renderLoop heightOf total count i top).2 := by
  intro count
  induction count with
  | zero => intro i top; rfl
  | succ n ih =>
    intro i top
    rw [renderLoop, boundsTrace]
    exact congrArg (fun y => Ev.status i total ::
      Ev.appended ⟨i, top, top + heightOf i⟩ :: y) (ih _ _)

theorem renderLoopNoStatus_trace_eq (heightOf : ℕ → ℚ) :
    ∀ (count i : ℕ) (top : ℚ),
      (renderLoopNoStatus heightOf count i top).1 =
        (renderLoopNoStatus heightOf count i top).2.map Ev.appended := by
  intro count
  induction count with
  | zero => intro i top; rfl
  | succ n ih =>
    intro i top
    rw [renderLoopNoStatus, List.map]
    exact congrArg (Ev.appended _ :: ·) (ih _ _)

theorem boundsTrace_filter_host (total : ℕ) :
    ∀ bs : List PageBoundary, (boundsTrace total bs).filter isHostEv = [] := by
  intro bs
  induction bs with
  | nil => rfl
  | cons b bs ih => simpa [boundsTrace, List.filter, isHostEv] using ih

theorem boundsTrace_filter_status (total : ℕ) :
    ∀ bs : List PageBoundary,
      (boundsTrace total bs).filter isStatusEv
        = bs.map (fun b => Ev.status b.pageNum total) := by
  intro bs
  induction bs with
  | nil => rfl
  | cons b bs ih => simpa [boundsTrace, List.filter, isStatusEv] using ih

theorem boundsTrace_appendedOf (total : ℕ) :
    ∀ bs : List PageBoundary, appendedOf (boundsTrace total bs) = bs := by
  intro bs
  induction bs with
  | nil => rfl
  | cons b bs ih => simpa [boundsTrace, appendedOf, List.filterMap] using ih

theorem boundsTrace_no_attach (total : ℕ) :
    ∀ bs : List PageBoundary, Ev.attachScroll ∉ boundsTrace total bs := by
  intro bs
  induction bs with
  | nil => exact List.not_mem_nil _
  | cons b bs ih =>
    intro h
    rcases List.mem_cons.mp h with h | h
    · cases h
    · rcases List.mem_cons.mp h with h | h
      · cases h
      · exact ih h

theorem boundsTrace_no_rendered (total : ℕ) :
    ∀ bs : List PageBoundary, Ev.rendered ∉ boundsTrace total bs := by
  intro bs
  induction bs with
  | nil => exact List.not_mem_nil _
  | cons b bs ih =>
    intro h
    rcases List.mem_cons.mp h with h | h
    · cases h
    · rcases List.mem_cons.mp h with h | h
      · cases h
      · exact ih h

theorem renderLoop_length (heightOf : ℕ → ℚ) (total : ℕ) :
    ∀ (count i : ℕ) (top : ℚ),
      (renderLoop heightOf total count i top).2.length = count := by
  intro count
  induction count with
  | zero => intro i top; rfl
  | succ n ih =>
    intro i top
    rw [renderLoop]
    exact congrArg Nat.succ (ih _ _)

theorem renderLoopNoStatus_length (heightOf : ℕ → ℚ) :
    ∀ (count i : ℕ) (top : ℚ),
      (renderLoopNoStatus heightOf count i top).2.length = count := by
  intro count
  induction count with
  | zero => intro i top; rfl
  | succ n ih =>
    intro i top
    rw [renderLoopNoStatus]
    exact congrArg Nat.succ (ih _ _)

theorem renderLoop_map_pageNum (heightOf : ℕ → ℚ) (total : ℕ) :
    ∀ (count i : ℕ) (top : ℚ),
      (renderLoop heightOf total count i top).2.map PageBoundary.pageNum
        = List.range' i count := by
  intro count
  induction count with
  | zero => intro i top; rfl
  | succ n ih =>
    intro i top
    rw [renderLoop, List.range'_succ, List.map]
    exact congrArg (i :: ·) (ih _ _)

theorem renderLoop_bounds_mem (heightOf : ℕ → ℚ) (total : ℕ)
    (hh : ∀ j, 0 ≤ heightOf j) :
    ∀ (count i : ℕ) (top : ℚ) (b : PageBoundary),
      b ∈ (renderLoop heightOf total count i top).2 →
        i ≤ b.pageNum ∧ top ≤ b.top := by
  intro count
  induction count with
  | zero => intro i top b hb; cases hb
  | succ n ih =>
    intro i top b hb
    rw [renderLoop] at hb
    rcases List.mem_cons.mp hb with h | h
    · subst h
      exact ⟨le_refl i, le_refl top⟩
    · obtain ⟨h1, h2⟩ := ih (i + 1) (top + heightOf i) b h
      exact ⟨le_trans (Nat.le_succ i) h1,
        le_trans (le_add_of_nonneg_right (hh i)) h2⟩

theorem renderLoop_pairwise (heightOf : ℕ → ℚ) (total : ℕ)
    (hh : ∀ j, 0 ≤ heightOf j) :
    ∀ (count i : ℕ) (top : ℚ),
      (renderLoop heightOf total count i top).2.Pairwise boundLt := by
  intro count
  induction count with
  | zero => intro i top; exact List.Pairwise.nil
  | succ n ih =>
    intro i top
    rw [renderLoop, List.pairwise_cons]
    refine ⟨?_, ih _ _⟩
    intro b hb
    obtain ⟨h1, h2⟩ := renderLoop_bounds_mem heightOf total hh n (i + 1)
      (top + heightOf i) b hb
    exact ⟨Nat.lt_of_succ_le h1, h2⟩

theorem renderLoop_prefix (heightOf : ℕ → ℚ) (total : ℕ) :
    ∀ (count i : ℕ) (top : ℚ),
      (renderLoop heightOf total count i top).2
        <+: (renderLoop heightOf total (count + 1) i top).2 := by
  intro count
  induction count with
  | zero => intro i top; exact List.nil_prefix
  | succ n ih =>
    intro i top
    rw [renderLoop]
    conv_rhs => rw [renderLoop]
    obtain ⟨t, ht⟩ := ih (i + 1) (top + heightOf i)
    exact ⟨t, by rw [List.cons_append, ht]⟩

theorem renderPDF_ok {decode : String → Except String PdfDoc} {s : String}
    {pdf : PdfDoc} (padTop : ℚ) (hs : ¬ s.length = 0) (hdec : decode s = .ok pdf) :
    renderPDF decode s padTop =
      ⟨Ev.loaded pdf.numPages ::
          ((renderLoop pdf.pageHeight pdf.numPages pdf.numPages 1 padTop).1
            ++ [Ev.rendered, Ev.attachScroll]),
        (renderLoop pdf.pageHeight pdf.numPages pdf.numPages 1 padTop).2,
        some pdf.numPages, true⟩ := by
  rw [renderPDF, if_neg hs, hdec]

theorem loadPDFByUrl_ok {getDoc : String → Except String PdfDoc} {url : String}
    {pdf : PdfDoc} (padTop : ℚ) (hdec : getDoc url = .ok pdf) :
    loadPDFByUrl getDoc url padTop =
      ⟨Ev.loaded pdf.numPages ::
          ((renderLoopNoStatus pdf.pageHeight pdf.numPages 1 padTop).1
            ++ [Ev.attachScroll]),
        (renderLoopNoStatus pdf.pageHeight pdf.numPages 1 padTop).2,
        some pdf.numPages, true⟩ := by
  rw [loadPDFByUrl, hdec]

theorem appendedOf_append (xs ys : List Ev) :
    appendedOf (xs ++ ys) = appendedOf xs ++ appendedOf ys := by
  simp [appendedOf, List.filterMap_append]

theorem appendedOf_map (bs : List PageBoundary) :
    appendedOf (bs.map Ev.appended) = bs := by
  induction bs with
  | nil => rfl
  | cons b bs ih => simpa [appendedOf, List.filterMap] using ih

theorem rendered_not_mem_map (bs : List PageBoundary) :
    Ev.rendered ∉ bs.map Ev.appended := by
  simp [List.mem_map]

theorem attach_not_mem_map (bs : List PageBoundary) :
    Ev.attachScroll ∉ bs.map Ev.appended := by
  simp [List.mem_map]

/-- Claim C3: an empty (zero-length) byte-fetch result makes the session
fail at the fetch step (`loadPdfFile` of part_000 raises
"Failed to read PDF file - empty content"), and the render surface's own
guard rejects empty data before the decoder runs: `renderPDF`'s result on
empty input is one fixed error trace for every possible decoder, i.e. the
decoder is never invoked on the empty input. -/
theorem empty_fetch_fails_no_decode :
    loadPdfFile (.ok "") = .error "Failed to read PDF file - empty content"
    ∧ ∀ (decode : String → Except String PdfDoc) (padTop : ℚ),
        renderPDF decode "" padTop
          = ⟨[Ev.errorSent "No PDF data available"], [], none, false⟩ := by
  exact ⟨rfl, fun decode padTop => rfl⟩

/-- Counterexample to claim C4 as stated: a 2-page document is decoded and
rendered, yet the host receives only the `loaded` and `rendered` messages —
zero per-page progress notifications, not the claimed N = 2 (the claim
would require 1 + 2 + 1 host events). -/
theorem pipeline_progress_to_host_counterexample :
    ((renderPDF (fun _ => .ok ⟨2, fun _ => 10⟩) "AAAA" 0).trace.filter isHostEv)
      = [Ev.loaded 2, Ev.rendered]
    ∧ ((renderPDF (fun _ => .ok ⟨2, fun _ => 10⟩) "AAAA" 0).trace.filter
          isHostEv).length ≠ 1 + 2 + 1 := by
  have h := @renderPDF_ok (fun _ => .ok ⟨2, fun _ => 10⟩) "AAAA"
    ⟨2, fun _ => 10⟩ 0 (by decide) rfl
  rw [h]
  refine ⟨?_, ?_⟩ <;>
    simp [renderLoop, List.filter, isHostEv]

/-- Claim C4, amended: one full pipeline run posts to the host exactly one
`loaded {totalPages = N}` message followed by exactly one `rendered`
message and nothing else; the N per-page progress indications are
surface-local status updates ('Page i of N'), shown with strictly
increasing page index 1..N, each immediately before page i's boundary is
appended — they are never sent to the host. -/
theorem pipeline_events_amended
    (decode : String → Except String PdfDoc) (base64Data : String) (padTop : ℚ)
    (pdf : PdfDoc) (hs : ¬ base64Data.length = 0)
    (hdec : decode base64Data = .ok pdf) (_hN : 1 ≤ pdf.numPages) :
    (renderPDF decode base64Data padTop).trace
      = Ev.loaded pdf.numPages ::
          (boundsTrace pdf.numPages (renderPDF decode base64Data padTop).bounds
            ++ [Ev.rendered, Ev.attachScroll])
    ∧ (renderPDF decode base64Data padTop).trace.filter isHostEv
        = [Ev.loaded pdf.numPages, Ev.rendered]
    ∧ (renderPDF decode base64Data padTop).trace.filter isStatusEv
        = (List.range' 1 pdf.numPages).map (fun i => Ev.status i pdf.numPages)
    ∧ (renderPDF decode base64Data padTop).bounds.length = pdf.numPages := by
  rw [renderPDF_ok padTop hs hdec]
  dsimp only
  refine ⟨?_, ?_, ?_, ?_⟩
  · rw [renderLoop_trace_eq]
  · rw [renderLoop_trace_eq, List.filter_cons, List.filter_append,
      boundsTrace_filter_host]
    simp [isHostEv, List.filter]
  · rw [renderLoop_trace_eq, List.filter_cons, List.filter_append,
      boundsTrace_filter_status, ← renderLoop_map_pageNum pdf.pageHeight
        pdf.numPages pdf.numPages 1 padTop, List.map_map]
    simp [isStatusEv, List.filter, Function.comp]
  · exact renderLoop_length pdf.pageHeight pdf.numPages pdf.numPages 1 padTop

/-- Witness for the amended C4 on a concrete 2-page document: the host
events are exactly `loaded 2` then `rendered`, and the surface shows
exactly the statuses for pages 1 and 2 in order. -/
theorem pipeline_events_amended_witness :
    ((renderPDF (fun _ => .ok ⟨2, fun _ => 10⟩) "QQ" 0).trace.filter isHostEv
        = [Ev.loaded 2, Ev.rendered])
    ∧ ((renderPDF (fun _ => .ok ⟨2, fun _ => 10⟩) "QQ" 0).trace.filter isStatusEv
        = [Ev.status 1 2, Ev.status 2 2]) := by
  have h := pipeline_events_amended (fun _ => .ok ⟨2, fun _ => 10⟩) "QQ" 0
    ⟨2, fun _ => 10⟩ (by decide) rfl (by decide)
  exact ⟨h.2.1, by rw [h.2.2.1]; rfl⟩

/-- Counterexample to claim C5 as stated: in the URL-based variant
(part_004's `loadPDF`), a successful 1-page run ends with the scroll
listener attached even though no fully-rendered notification was ever
emitted — the "and the fully-rendered notification has been emitted"
conjunct fails for this reader variant. -/
theorem scroll_attach_counterexample :
    (loadPDFByUrl (fun _ => .ok ⟨1, fun _ => 10⟩) "doc.pdf" 0).scrollAttached = true
    ∧ Ev.rendered ∉
        (loadPDFByUrl (fun _ => .ok ⟨1, fun _ => 10⟩) "doc.pdf" 0).trace := by
  constructor
  · rfl
  · have h := @loadPDFByUrl_ok (fun _ => .ok ⟨1, fun _ => 10⟩) "doc.pdf"
      ⟨1, fun _ => 10⟩ 0 rfl
    rw [h]
    simp [renderLoopNoStatus]

/-- Claim C5, amended: in every variant the scroll listener is attached
only after the render loop has appended all N page boundaries, so no
page-change computation can read `pageBoundaries` while pages are still
being appended; in the webview pipeline (`renderPDF`) the attach moreover
happens only immediately after the fully-rendered notification, but the
URL-based variant (`loadPDFByUrl`) attaches the listener without emitting
any fully-rendered notification at all. -/
theorem scroll_attach_amended :
    (∀ (decode : String → Except String PdfDoc) (s : String) (padTop : ℚ),
      (renderPDF decode s padTop).scrollAttached = true →
        ∃ pre, (renderPDF decode s padTop).trace
            = pre ++ [Ev.rendered, Ev.attachScroll]
          ∧ Ev.attachScroll ∉ pre ∧ Ev.rendered ∉ pre
          ∧ (renderPDF decode s padTop).totalKnown
              = some (renderPDF decode s padTop).bounds.length)
    ∧ (∀ (getDoc : String → Except String PdfDoc) (url : String) (padTop : ℚ),
      (loadPDFByUrl getDoc url padTop).scrollAttached = true →
        ∃ pre, (loadPDFByUrl getDoc url padTop).trace = pre ++ [Ev.attachScroll]
          ∧ Ev.attachScroll ∉ pre
          ∧ appendedOf pre = (loadPDFByUrl getDoc url padTop).bounds
          ∧ (loadPDFByUrl getDoc url padTop).totalKnown
              = some (loadPDFByUrl getDoc url padTop).bounds.length
          ∧ Ev.rendered ∉ (loadPDFByUrl getDoc url padTop).trace) := by
  constructor
  · intro decode s padTop h
    by_cases hs : s.length = 0
    · rw [renderPDF, if_pos hs] at h
      cases h
    · cases hdec : decode s with
      | error m =>
        rw [renderPDF, if_neg hs, hdec] at h
        cases h
      | ok pdf =>
        rw [renderPDF_ok padTop hs hdec]
        refine ⟨Ev.loaded pdf.numPages ::
          (renderLoop pdf.pageHeight pdf.numPages pdf.numPages 1 padTop).1,
          ?_, ?_, ?_, ?_⟩
        · rw [List.cons_append]
        · intro hmem
          rcases List.mem_cons.mp hmem with hx | hx
          · cases hx
          · rw [renderLoop_trace_eq] at hx
            exact boundsTrace_no_attach pdf.numPages _ hx
        · intro hmem
          rcases List.mem_cons.mp hmem with hx | hx
          · cases hx
          · rw [renderLoop_trace_eq] at hx
            exact boundsTrace_no_rendered pdf.numPages _ hx
        · rw [renderLoop_length]
  · intro getDoc url padTop h
    cases hdec : getDoc url with
    | error m =>
      rw [loadPDFByUrl, hdec] at h
      cases h
    | ok pdf =>
      rw [loadPDFByUrl_ok padTop hdec]
      refine ⟨Ev.loaded pdf.numPages ::
        (renderLoopNoStatus pdf.pageHeight pdf.numPages 1 padTop).1,
        ?_, ?_, ?_, ?_, ?_⟩
      · rw [List.cons_append]
      · intro hmem
        rcases List.mem_cons.mp hmem with hx | hx
        · cases hx
        · rw [renderLoopNoStatus_trace_eq] at hx
          exact attach_not_mem_map _ hx
      · rw [appendedOf, List.filterMap_cons]
        dsimp only
        rw [← appendedOf, renderLoopNoStatus_trace_eq, appendedOf_map]
      · rw [renderLoopNoStatus_length]
      · intro hmem
        rcases List.mem_cons.mp hmem with hx | hx
        · cases hx
        · rcases List.mem_append.mp hx with hx | hx
          · rw [renderLoopNoStatus_trace_eq] at hx
            exact rendered_not_mem_map _ hx
          · rcases List.mem_cons.mp hx with hx | hx
            · cases hx
            · cases hx

/-- Witness for the amended C5 on concrete 1-page runs of both variants. -/
theorem scroll_attach_amended_witness :
    ((renderPDF (fun _ => .ok ⟨1, fun _ => 10⟩) "QQ" 0).scrollAttached = true)
    ∧ (∃ pre, (renderPDF (fun _ => .ok ⟨1, fun _ => 10⟩) "QQ" 0).trace
        = pre ++ [Ev.rendered, Ev.attachScroll]
      ∧ Ev.attachScroll ∉ pre ∧ Ev.rendered ∉ pre
      ∧ (renderPDF (fun _ => .ok ⟨1, fun _ => 10⟩) "QQ" 0).totalKnown
          = some (renderPDF (fun _ => .ok ⟨1, fun _ => 10⟩) "QQ" 0).bounds.length)
    ∧ ((loadPDFByUrl (fun _ => .ok ⟨1, fun _ => 10⟩) "doc.pdf" 0).scrollAttached = true)
    ∧ (∃ pre, (loadPDFByUrl (fun _ => .ok ⟨1, fun _ => 10⟩) "doc.pdf" 0).trace
        = pre ++ [Ev.attachScroll]
      ∧ Ev.attachScroll ∉ pre
      ∧ appendedOf pre = (loadPDFByUrl (fun _ => .ok ⟨1, fun _ => 10⟩) "doc.pdf" 0).bounds
      ∧ (loadPDFByUrl (fun _ => .ok ⟨1, fun _ => 10⟩) "doc.pdf" 0).totalKnown
          = some (loadPDFByUrl (fun _ => .ok ⟨1, fun _ => 10⟩) "doc.pdf" 0).bounds.length
      ∧ Ev.rendered ∉ (loadPDFByUrl (fun _ => .ok ⟨1, fun _ => 10⟩) "doc.pdf" 0).trace) :=
  ⟨rfl,
   scroll_attach_amended.1 (fun _ => .ok ⟨1, fun _ => 10⟩) "QQ" 0 rfl,
   rfl,
   scroll_attach_amended.2 (fun _ => .ok ⟨1, fun _ => 10⟩) "doc.pdf" 0 rfl⟩

/-- Claim C6: across a session the boundary list is appended in page order
1..N and never reordered or removed (every shorter loop state is a prefix
of the next, and the trace's appends equal the final list in order), and —
since measured canvas heights are non-negative — the resulting sequence is
ordered and non-overlapping: page numbers strictly increase and
`bottomOffset ≤` the next entry's `topOffset` (pairwise, hence in
particular for consecutive entries). -/
theorem boundaries_ordered_append_only
    (decode : String → Except String PdfDoc) (base64Data : String) (padTop : ℚ)
    (pdf : PdfDoc) (hs : ¬ base64Data.length = 0)
    (hdec : decode base64Data = .ok pdf) (hh : ∀ j, 0 ≤ pdf.pageHeight j) :
    (renderPDF decode base64Data padTop).bounds.map PageBoundary.pageNum
        = List.range' 1 pdf.numPages
    ∧ (renderPDF decode base64Data padTop).bounds.Pairwise boundLt
    ∧ appendedOf (renderPDF decode base64Data padTop).trace
        = (renderPDF decode base64Data padTop).bounds
    ∧ ∀ count : ℕ,
        (renderLoop pdf.pageHeight pdf.numPages count 1 padTop).2
          <+: (renderLoop pdf.pageHeight pdf.numPages (count + 1) 1 padTop).2 := by
  rw [renderPDF_ok padTop hs hdec]
  dsimp only
  refine ⟨?_, ?_, ?_, ?_⟩
  · exact renderLoop_map_pageNum pdf.pageHeight pdf.numPages pdf.numPages 1 padTop
  · exact renderLoop_pairwise pdf.pageHeight pdf.numPages hh pdf.numPages 1 padTop
  · rw [appendedOf, List.filterMap_cons]
    dsimp only
    rw [← appendedOf, appendedOf_append, renderLoop_trace_eq, boundsTrace_appendedOf]
    simp [appendedOf, List.filterMap]
  · intro count
    exact renderLoop_prefix pdf.pageHeight pdf.numPages count 1 padTop

/-- Witness for C6 on a concrete 2-page document with page heights 10. -/
theorem boundaries_ordered_append_only_witness :
    ((renderPDF (fun _ => .ok ⟨2, fun _ => 10⟩) "QQ" 0).bounds.map
        PageBoundary.pageNum = [1, 2])
    ∧ (renderPDF (fun _ => .ok ⟨2, fun _ => 10⟩) "QQ" 0).bounds.Pairwise boundLt
    ∧ appendedOf (renderPDF (fun _ => .ok ⟨2, fun _ => 10⟩) "QQ" 0).trace
        = (renderPDF (fun _ => .ok ⟨2, fun _ => 10⟩) "QQ" 0).bounds := by
  have h := boundaries_ordered_append_only (fun _ => .ok ⟨2, fun _ => 10⟩) "QQ" 0
    ⟨2, fun _ => 10⟩ (by decide) rfl (fun j => by norm_num)
  exact ⟨by rw [h.1]; rfl, h.2.1, h.2.2.1⟩

/-! ## Controls visibility and the auto-hide timers

Embedding of `showControls` / `hideControls` / `scheduleHideControls` /
`toggleControls` of the host controller (`ReaderScreen.tsx` lines 73-116,
`src/unnamed/part_000` lines 407-432, `src/unnamed/part_004` lines 59-100 —
all identical).  `setTimeout` returns a fresh timer id recorded in the
single ref `hideControlsTimeout.current`; `clearTimeout` cancels exactly
the timer whose id is passed (a stale id cancels nothing).  Time is
explicit (`now`, in milliseconds); a timer fires at its `due` instant. -/

/-- What a scheduled callback does when it fires: `runHide` is
`scheduleHideControls`'s `() => hideControls()`; `clearVisible` is
`hideControls`'s `() => setControlsVisible(false)`. -/
inductive TimerAct where
  | runHide
  | clearVisible
deriving DecidableEq

/-- A pending `setTimeout` callback. -/
structure PendingTimer where
  tid : ℕ
  due : ℕ
  act : TimerAct
deriving DecidableEq

/-- Controls-visibility state of the host controller: `visible` is the
`controlsVisible` React state (the chrome is in the layout iff it is true),
`opacityTarget`/`fadeDuration` record the last `withTiming` animation,
`timerRef` is `hideControlsTimeout.current`, `pending` the timers that have
been set and neither fired nor been cleared. -/
structure CtrlState where
  now : ℕ
  nextId : ℕ
  visible : Bool
  opacityTarget : ℚ
  fadeDuration : ℕ
  timerRef : Option ℕ
  pending : List PendingTimer
deriving DecidableEq

/-- `clearTimeout(hideControlsTimeout.current)`: removes the referenced
timer from the pending set (a stale id removes nothing); the ref itself is
not nulled by the source code. -/
def clearRefTimer (s : CtrlState) : CtrlState :=
  match s.timerRef with
  | some i => { s with pending := s.pending.filter (fun t => t.tid ≠ i) }
  | none => s

/-- `hideControlsTimeout.current = setTimeout(..., delay)`: registers a
fresh timer and stores its id in the ref. -/
def setTimerAfter (s : CtrlState) (delay : ℕ) (a : TimerAct) : CtrlState :=
  { s with
    pending := s.pending ++ [⟨s.nextId, s.now + delay, a⟩],
    nextId := s.nextId + 1,
    timerRef := some s.nextId }

/-- `showControls`: clear the referenced timeout, set `controlsVisible`
true, fade opacity to 1 over 200ms. -/
def showControls (s : CtrlState) : CtrlState :=
  let s1 := clearRefTimer s
  { s1 with visible := true, opacityTarget := 1, fadeDuration := 200 }

/-- `hideControls`: fade opacity to 0 over 300ms and schedule
`setControlsVisible(false)` after 300ms — without clearing any previously
scheduled timeout first. -/
def hideControls (s : CtrlState) : CtrlState :=
  setTimerAfter { s with opacityTarget := 0, fadeDuration := 300 }
    300 TimerAct.clearVisible

/-- `scheduleHideControls`: clear the referenced timeout and schedule
`hideControls` after the fixed 3000ms idle period. -/
def scheduleHideControls (s : CtrlState) : CtrlState :=
  setTimerAfter (clearRefTimer s) 3000 TimerAct.runHide

/-- `toggleControls` (haptics aside): hide when visible, otherwise show and
reschedule the auto-hide. -/
def toggleControls (s : CtrlState) : CtrlState :=
  if s.visible then hideControls s
  else scheduleHideControls (showControls s)

/-- A pending timer fires at its due instant: it leaves the pending set and
its callback runs. -/
def fireTimer (s : CtrlState) (t : PendingTimer) : CtrlState :=
  let s1 := { s with
    pending := s.pending.filter (fun x => x.tid ≠ t.tid), now := t.due }
  match t.act with
  | .clearVisible => { s1 with visible := false }
  | .runHide => hideControls s1

/-- Initial state on mount: controls visible, opacity 1, no timer yet
(`useState(true)`, `useSharedValue(1)`, ref `null`). -/
def initialCtrl : CtrlState :=
  ⟨0, 0, true, 1, 0, none, []⟩

/-- State right after the mount effect ran `scheduleHideControls()`. -/
def mountCtrl : CtrlState := scheduleHideControls initialCtrl

@[simp] theorem clearRefTimer_now (s : CtrlState) :
    (clearRefTimer s).now = s.now := by
  cases h : s.timerRef <;> simp [clearRefTimer, h]

@[simp] theorem clearRefTimer_nextId (s : CtrlState) :
    (clearRefTimer s).nextId = s.nextId := by
  cases h : s.timerRef <;> simp [clearRefTimer, h]

@[simp] theorem clearRefTimer_visible (s : CtrlState) :
    (clearRefTimer s).visible = s.visible := by
  cases h : s.timerRef <;> simp [clearRefTimer, h]

@[simp] theorem clearRefTimer_timerRef (s : CtrlState) :
    (clearRefTimer s).timerRef = s.timerRef := by
  cases h : s.timerRef <;> simp [clearRefTimer, h]

/-- Counterexample to claim C7 as stated: `mountCtrl` is reachable (the
mount effect schedules the auto-hide), and a single tap on the visible
controls runs `hideControls`, which schedules the 300ms removal timer
without cancelling the pending 3000ms auto-hide — two hide timers are then
pending at once, violating "at most one pending hide timer exists at a
time". -/
theorem controls_single_timer_counterexample :
    (toggleControls mountCtrl).pending
      = [⟨0, 3000, TimerAct.runHide⟩, ⟨1, 300, TimerAct.clearVisible⟩]
    ∧ ¬ (toggleControls mountCtrl).pending.length ≤ 1 := by
  constructor
  · rfl
  · decide

/-- Claim C7, amended: `showControls` always cancels the timer currently
referenced and leaves the controls visible; the show-path of
`toggleControls` reschedules the auto-hide 3000ms ahead; `hideControls`
fades opacity over 300ms, leaves the controls in the layout, and schedules
their removal for 300ms later (the removal happens only when that timer
fires) — but it does not cancel a previously referenced pending timer, so
a hide triggered while an auto-hide is pending leaves two pending timers
(the claimed "at most one pending hide timer" invariant does not hold). -/
theorem controls_timers_amended :
    (∀ (s : CtrlState) (i : ℕ), s.timerRef = some i →
        ∀ t ∈ (showControls s).pending, t.tid ≠ i)
    ∧ (∀ s : CtrlState, (showControls s).visible = true)
    ∧ (∀ s : CtrlState, s.visible = false →
        (toggleControls s).visible = true
        ∧ ∃ t ∈ (toggleControls s).pending,
            (toggleControls s).timerRef = some t.tid
            ∧ t.due = s.now + 3000 ∧ t.act = TimerAct.runHide)
    ∧ (∀ s : CtrlState,
        (hideControls s).opacityTarget = 0
        ∧ (hideControls s).fadeDuration = 300
        ∧ (hideControls s).visible = s.visible
        ∧ ∃ t ∈ (hideControls s).pending,
            (hideControls s).timerRef = some t.tid
            ∧ t.due = s.now + 300 ∧ t.act = TimerAct.clearVisible)
    ∧ (∀ (s : CtrlState) (t : PendingTimer),
        t.act = TimerAct.clearVisible → (fireTimer s t).visible = false) := by
  refine ⟨?_, ?_, ?_, ?_, ?_⟩
  · intro s i href t ht
    rw [showControls] at ht
    dsimp only at ht
    rw [clearRefTimer, href] at ht
    dsimp only at ht
    exact of_decide_eq_true (List.mem_filter.mp ht).2
  · intro s
    simp [showControls]
  · intro s hvis
    rw [toggleControls, if_neg (by rw [hvis]; exact Bool.false_ne_true)]
    constructor
    · simp [scheduleHideControls, setTimerAfter, showControls]
    · refine ⟨⟨s.nextId, s.now + 3000, TimerAct.runHide⟩, ?_, ?_, rfl, rfl⟩
      · simp [scheduleHideControls, setTimerAfter, showControls]
      · simp [scheduleHideControls, setTimerAfter, showControls]
  · intro s
    refine ⟨rfl, rfl, rfl, ⟨s.nextId, s.now + 300, TimerAct.clearVisible⟩,
      ?_, rfl, rfl, rfl⟩
    rw [hideControls, setTimerAfter]
    exact List.mem_append_right _ (List.mem_singleton.mpr rfl)
  · intro s t hact
    rw [fireTimer, hact]

/-- Witness for the amended C7 at concrete reachable states. -/
theorem controls_timers_amended_witness :
    mountCtrl.timerRef = some 0
    ∧ (∀ t ∈ (showControls mountCtrl).pending, t.tid ≠ 0)
    ∧ (showControls mountCtrl).visible = true
    ∧ ((⟨0, 0, false, 0, 300, none, []⟩ : CtrlState).visible = false)
    ∧ (toggleControls ⟨0, 0, false, 0, 300, none, []⟩).visible = true
    ∧ (∃ t ∈ (toggleControls (⟨0, 0, false, 0, 300, none, []⟩ : CtrlState)).pending,
        (toggleControls (⟨0, 0, false, 0, 300, none, []⟩ : CtrlState)).timerRef
            = some t.tid
        ∧ t.due = 0 + 3000 ∧ t.act = TimerAct.runHide)
    ∧ (hideControls mountCtrl).fadeDuration = 300
    ∧ (∃ t ∈ (hideControls mountCtrl).pending,
        (hideControls mountCtrl).timerRef = some t.tid
        ∧ t.due = mountCtrl.now + 300 ∧ t.act = TimerAct.clearVisible)
    ∧ (fireTimer mountCtrl ⟨1, 300, TimerAct.clearVisible⟩).visible = false :=
  ⟨rfl,
   controls_timers_amended.1 mountCtrl 0 rfl,
   controls_timers_amended.2.1 mountCtrl,
   rfl,
   (controls_timers_amended.2.2.1 ⟨0, 0, false, 0, 300, none, []⟩ rfl).1,
   (controls_timers_amended.2.2.1 ⟨0, 0, false, 0, 300, none, []⟩ rfl).2,
   (controls_timers_amended.2.2.2.1 mountCtrl).2.1,
   (controls_timers_amended.2.2.2.1 mountCtrl).2.2.2,
   controls_timers_amended.2.2.2.2 mountCtrl ⟨1, 300, TimerAct.clearVisible⟩ rfl⟩

/-! ## Host controller: in-memory page state and persistence

Embedding of `handlePageChange` / `handleGoBack` and the error handler of
the reader screens (`ReaderScreen.tsx` lines 118-129 and 361-363,
`src/unnamed/part_000` lines 434-443).  `updateReadProgress(document.id,
currentPage)` calls on the Document store are logged in `storeWrites`. -/

/-- Host controller state for one reading session. -/
structure HostState where
  currentPage : ℕ
  totalPages : ℕ
  errorMsg : Option String
  loading : Bool
  storeWrites : List ℕ
deriving DecidableEq

/-- Session events the host reacts to: a `page`/`pageChange` message from
the surface, an `error` message, or the user pressing the back button
(either the overlay's or the error view's — both run `handleGoBack`). -/
inductive HostEv where
  | pageChange (page total : ℕ)
  | errorEv (msg : String)
  | goBack
deriving DecidableEq

/-- One host step: `handlePageChange` only sets the in-memory
`currentPage`/`totalPages`; the error handler only sets `error` and stops
loading; `handleGoBack` persists the in-memory `currentPage` via
`updateReadProgress` and leaves. -/
def hostStep (s : HostState) : HostEv → HostState
  | .pageChange p t => { s with currentPage := p, totalPages := t }
  | .errorEv m => { s with errorMsg := some m, loading := false }
  | .goBack => { s with storeWrites := s.storeWrites ++ [s.currentPage] }

/-- A session run: fold the host step over the event sequence. -/
def hostRun (s : HostState) (evs : List HostEv) : HostState :=
  evs.foldl hostStep s

theorem hostRun_append (s : HostState) (evs : List HostEv) (e : HostEv) :
    hostRun s (evs ++ [e]) = hostStep (hostRun s evs) e := by
  rw [hostRun, List.foldl_append, List.foldl_cons, List.foldl_nil, hostRun]

theorem hostRun_writes_const (evs : List HostEv) :
    ∀ s : HostState, HostEv.goBack ∉ evs →
      (hostRun s evs).storeWrites = s.storeWrites := by
  induction evs with
  | nil => intro s _; rfl
  | cons e es ih =>
    intro s hng
    have he : e ≠ HostEv.goBack := fun h => hng (h ▸ List.mem_cons_self e es)
    have hes : HostEv.goBack ∉ es := fun h => hng (List.mem_cons_of_mem e h)
    rw [hostRun, List.foldl_cons, ← hostRun]
    rw [ih _ hes]
    cases e with
    | pageChange p t => rfl
    | errorEv m => rfl
    | goBack => exact absurd rfl he

/-- Claim C8: during a session (any event sequence without a back press —
page changes and even a session-failing error included) the Document store
is never written; page-change notifications mutate only the in-memory
`currentPage`; and leaving the reader (the back press, the only exit in
both the normal and the error view) writes the store exactly once, with the
in-memory `currentPage` at that moment. -/
theorem persistence_once_at_teardown
    (init : HostState) (evs : List HostEv)
    (h0 : init.storeWrites = []) (hng : HostEv.goBack ∉ evs) :
    (hostRun init evs).storeWrites = []
    ∧ (hostRun init (evs ++ [HostEv.goBack])).storeWrites
        = [(hostRun init evs).currentPage]
    ∧ (∀ (s : HostState) (p t : ℕ),
        (hostStep s (HostEv.pageChange p t)).storeWrites = s.storeWrites
        ∧ (hostStep s (HostEv.pageChange p t)).currentPage = p)
    ∧ (∀ (s : HostState) (m : String),
        (hostStep s (HostEv.errorEv m)).storeWrites = s.storeWrites) := by
  have hconst := hostRun_writes_const evs init hng
  refine ⟨hconst.trans h0, ?_, ?_, ?_⟩
  · rw [hostRun_append, hostStep, hconst, h0, List.nil_append]
  · intro s p t
    exact ⟨rfl, rfl⟩
  · intro s m
    exact rfl

/-- Witness for C8: a session that changes page to 2 of 3, then fails, then
is left via the error view's back action persists exactly one write of 2. -/
theorem persistence_once_at_teardown_witness :
    ((⟨1, 1, none, true, []⟩ : HostState).storeWrites = [])
    ∧ HostEv.goBack ∉ [HostEv.pageChange 2 3, HostEv.errorEv "boom"]
    ∧ (hostRun ⟨1, 1, none, true, []⟩
        [HostEv.pageChange 2 3, HostEv.errorEv "boom"]).storeWrites = []
    ∧ (hostRun ⟨1, 1, none, true, []⟩
        ([HostEv.pageChange 2 3, HostEv.errorEv "boom"] ++ [HostEv.goBack])).storeWrites
      = [(hostRun ⟨1, 1, none, true, []⟩
          [HostEv.pageChange 2 3, HostEv.errorEv "boom"]).currentPage] :=
  ⟨rfl, by decide,
   (persistence_once_at_teardown ⟨1, 1, none, true, []⟩
      [HostEv.pageChange 2 3, HostEv.errorEv "boom"] rfl (by decide)).1,
   (persistence_once_at_teardown ⟨1, 1, none, true, []⟩
      [HostEv.pageChange 2 3, HostEv.errorEv "boom"] rfl (by decide)).2.1⟩

/-- Claim C9 (implicit): the render surface initialises its last-notified
page to `1`, so any scroll sequence whose probe points all fall inside the
first recorded boundary's span — a boundary for page 1 — emits no
page-change message at all; moreover in any run started at page 1 the first
message ever posted is never for page 1, so the host can only "hear about"
page 1 after the current page has first moved away. -/
theorem initial_page_one_never_notified
    (offsets : List PageBoundary) (total : ℕ) (b1 : PageBoundary)
    (probes : List ℚ) (hhead : offsets.head? = some b1) (hb1 : b1.pageNum = 1)
    (hin : ∀ q ∈ probes, b1.top ≤ q ∧ q < b1.bottom) :
    runEmits offsets total currentVisiblePageInit probes = []
    ∧ ∀ (qs : List ℚ) (m : PageMsg),
        (runEmits offsets total currentVisiblePageInit qs).head? = some m →
          m.current ≠ 1 := by
  constructor
  · cases offsets with
    | nil => cases hhead
    | cons c rest =>
      have hc : c = b1 := by
        simpa [List.head?] using hhead
      subst hc
      induction probes with
      | nil => rfl
      | cons q qs ih =>
        have hq := hin q (List.mem_cons_self q qs)
        have hcc : ¬ (currentVisiblePageInit ≠ c.pageNum) :=
          not_ne_iff.mpr (show currentVisiblePageInit = c.pageNum from hb1.symm)
        have hloop : scrollLoop total currentVisiblePageInit q (c :: rest)
            = (currentVisiblePageInit, none) := by
          rw [scrollLoop, if_pos hq, if_neg hcc]
        rw [runEmits, hloop]
        exact ih (fun x hx => hin x (List.mem_cons_of_mem q hx))
  · intro qs
    induction qs with
    | nil => intro m hm; cases hm
    | cons q qs ih =>
      intro m hm
      rw [runEmits] at hm
      cases hsnd : (scrollLoop total currentVisiblePageInit q offsets).2 with
      | some m0 =>
        rw [hsnd] at hm
        have hne := (scrollLoop_emit_ne total currentVisiblePageInit q offsets
          m0 hsnd).1
        have hmm : m0 = m := by
          simpa [List.head?] using hm
        subst hmm
        exact hne
      | none =>
        rw [hsnd] at hm
        rw [scrollLoop_none_fst total currentVisiblePageInit q offsets hsnd] at hm
        exact ih m hm

/-- Witness for C9: probes 3 and 5 stay inside page 1's span [0, 10), and
no message is emitted. -/
theorem initial_page_one_never_notified_witness :
    (([⟨1, 0, 10⟩, ⟨2, 10, 20⟩] : List PageBoundary).head? = some ⟨1, 0, 10⟩)
    ∧ (∀ q ∈ ([3, 5] : List ℚ),
        (⟨1, 0, 10⟩ : PageBoundary).top ≤ q ∧ q < (⟨1, 0, 10⟩ : PageBoundary).bottom)
    ∧ runEmits [⟨1, 0, 10⟩, ⟨2, 10, 20⟩] 2 currentVisiblePageInit [3, 5] = [] :=
  ⟨rfl, by norm_num,
   (initial_page_one_never_notified [⟨1, 0, 10⟩, ⟨2, 10, 20⟩] 2 ⟨1, 0, 10⟩
      [3, 5] rfl rfl (by norm_num)).1⟩

/-- `progress` of the host controllers (`ReaderScreen.tsx` line 135,
part_000 line 446, part_004 line 117):
`totalPages > 0 ? (currentPage / totalPages) * 100 : 0`. -/
def progress (currentPage totalPages : ℚ) : ℚ :=
  if totalPages > 0 then currentPage / totalPages * 100 else 0

/-- Claim C10 (implicit): the displayed progress fraction is total: it
equals `(currentPage / totalPages) * 100` whenever `totalPages > 0` and is
exactly `0` whenever `totalPages ≤ 0`, so the division is guarded and never
evaluated with a zero divisor in any state. -/
theorem progress_guarded (currentPage totalPages : ℚ) :
    (0 < totalPages → progress currentPage totalPages
        = currentPage / totalPages * 100)
    ∧ (totalPages ≤ 0 → progress currentPage totalPages = 0) := by
  constructor
  · intro h
    rw [progress, if_pos h]
  · intro h
    rw [progress, if_neg (not_lt.mpr h)]

/-- Witness for C10 at concrete values, including the guarded zero case. -/
theorem progress_guarded_witness :
    progress 1 2 = 1 / 2 * 100 ∧ progress 5 0 = 0 :=
  ⟨(progress_guarded 1 2).1 (by norm_num), (progress_guarded 5 0).2 (by norm_num)⟩

end InfiniteReader
